import Mathlib

/-!
Verification of the configuration acquisition and normalization pipeline of
the file-watcher-gomplate repository (src/config.js), as a shallow embedding.

The embedding follows the source file function by function:
  * `getPathFromArg`, the argv rebuild loop and `getConfig` (lines 94-184),
  * the lodash `template` engine specialised to `templateInterpolateReg`
    (line 92), modelled from the documented interpolation semantics of the
    lodash dependency,
  * `checkUniqueField` (lines 15-31) and the Joi schemas (lines 33-90),
    modelled from the documented behaviour of the @hapi/joi dependency under
    the options passed at lines 266-273 (abortEarly false, stripUnknown),
  * `mapOnChange`, `mapDataSource` and the datasource partition of
    `parseConfig` (lines 186-294).

External dependencies (yargs-parser, the WHATWG URL parser, the filesystem,
the child process runner) are modelled as explicit inputs or as small
faithful models of their documented behaviour; the environment variables are
passed in as an explicit record.
-/

/-- Result of the WHATWG `new URL` constructor, restricted to the two
components the source reads: `protocol` (scheme plus trailing colon, lower
case) and `pathname`. -/
structure JsURL where
  protocol : String
  pathname : String
deriving Repr, DecidableEq

/-- Characters allowed in a URI scheme after the first letter. -/
def isSchemeChar (c : Char) : Bool :=
  c.isAlphanum || c = '+' || c = '-' || c = '.'

/-- Split a character list at the first occurrence of `c`; `none` when `c`
does not occur.  The separator itself is dropped. -/
def splitAtChar (c : Char) : List Char → Option (List Char × List Char)
  | [] => none
  | x :: xs =>
    if x = c then some ([], xs)
    else
      match splitAtChar c xs with
      | some (a, b) => some (x :: a, b)
      | none => none

/-- Model of `new URL(s)`: extract the scheme before the first colon
(lower-cased, first character a letter), then, when an authority introducer
`//` follows, take the pathname from the first slash after the authority.
Invalid URLs (no scheme) give `none`, as the constructor throws. -/
def parseURL (s : String) : Option JsURL :=
  match splitAtChar ':' s.toList with
  | none => none
  | some (schemeChars, rest) =>
    match schemeChars with
    | [] => none
    | c0 :: _ =>
      if c0.isAlpha && schemeChars.all isSchemeChar then
        let proto := String.mk (schemeChars.map Char.toLower) ++ ":"
        match rest with
        | '/' :: '/' :: r2 =>
          some { protocol := proto, pathname := String.mk (r2.dropWhile (fun c => c ≠ '/')) }
        | r => some { protocol := proto, pathname := String.mk r }
      else none

/-- Model of `v.substring(v.indexOf(Eq) + 1)`: everything after the first
equals sign, or the whole string when there is none. -/
def afterFirstEq (v : String) : String :=
  match splitAtChar '=' v.toList with
  | some (_, rest) => String.mk rest
  | none => v

/-- Model of `String.prototype.startsWith`, written over character lists
so that it evaluates by reduction. -/
def strStartsWith (s pre : String) : Bool :=
  pre.toList.isPrefixOf s.toList

/-- Source `getPathFromArg` (config.js lines 94-108).  Flags `t` and `f`
contribute their literal value; flag `d` parses the part after the first
equals sign as a URL and contributes its pathname when the protocol starts
with "file".  An unparseable URL makes `new URL` throw, modelled as
`Except.error`. -/
def getPathFromArg (arg : String) (v : String) : Except Unit (Option String) :=
  if arg = "t" || arg = "f" then .ok (some v)
  else if arg = "d" then
    match parseURL (afterFirstEq v) with
    | none => .error ()
    | some u =>
      if strStartsWith u.protocol "file" then .ok (some u.pathname) else .ok none
  else .ok none

/-- Value of a parsed command line flag as produced by the yargs-parser
dependency: a plain string or a repeated-flag string array. -/
inductive FlagVal where
  | str (s : String)
  | arr (l : List String)
deriving Repr, DecidableEq

/-- JavaScript truthiness of a flag value: the empty string is falsy, every
other string is truthy, and arrays are always truthy. -/
def FlagVal.truthy : FlagVal → Bool
  | .str s => s ≠ ""
  | .arr _ => true

/-- Output of the yargs-parser dependency applied to CONFIG_TEMPLATE_ARGS:
a flag map in insertion order plus the positional list stored under `_`. -/
structure ParsedArgs where
  flags : List (String × FlagVal)
  positional : List String
deriving Repr, DecidableEq

/-- The CONFIG_TEMPLATE_ARGS environment variable together with its parse:
the raw text (used in the conflict error message) and the parsed form. -/
structure TemplateArgsEnv where
  raw : String
  parsed : ParsedArgs
deriving Repr, DecidableEq

/-- The environment record read by `getConfig`.  A field is `some` exactly
when the corresponding variable is set to a truthy (non-empty) string. -/
structure Env where
  templateArgs : Option TemplateArgsEnv
  configPath : Option String
deriving Repr, DecidableEq

/-- JavaScript `Set` insertion: append when not already present, preserving
insertion order. -/
def addDep (deps : List String) (p : String) : List String :=
  if p ∈ deps then deps else deps ++ [p]

/-- One push of the argv rebuild loop (config.js lines 130-148): compute the
dependency path of the flag-value pair, add it to the dependency set when
truthy (the empty string is falsy and is not added), and append
`-<flag> <value>` to the argument vector. -/
def buildStep (k : String) (v : String) (st : List String × List String) :
    Except Unit (List String × List String) := do
  let dep ← getPathFromArg k v
  let deps :=
    match dep with
    | some p => if p = "" then st.2 else addDep st.2 p
    | none => st.2
  .ok (st.1 ++ ["-" ++ k, v], deps)

/-- The argv rebuild reduce of `getConfig` (config.js lines 127-151): fold
over the flag map in key insertion order, array values one element at a
time, producing the rebuilt argument vector and the dependency set. -/
def buildCmdArgs (flags : List (String × FlagVal)) :
    Except Unit (List String × List String) :=
  flags.foldlM
    (fun st kv =>
      match kv.2 with
      | .str v => buildStep kv.1 v st
      | .arr l => l.foldlM (fun st v => buildStep kv.1 v st) st)
    ([], [])

/-- Outcome of one filesystem read, with the Node error code on failure. -/
inductive FsResult where
  | ok (content : String)
  | err (code : String)
deriving Repr, DecidableEq

/-- Outcome of `execFileAsync`. -/
inductive ExecResult where
  | ok (stdout : String)
  | err (e : String)
deriving Repr, DecidableEq

/-- Errors surfaced by `getConfig`, one constructor per distinct failure in
the source: the explicit conflict throw (line 116), the ReferenceError
raised by the undefined `value` at line 119, the explicit at-least-one
argument throw (line 154), TypeErrors from calling library functions with
undefined, a URL constructor throw, a process failure, and a filesystem
error rethrow. -/
inductive ConfigError where
  | conflict (msg : String)
  | refError (msg : String)
  | acquisition (msg : String)
  | typeError (msg : String)
  | urlError (msg : String)
  | execFailed (e : String)
  | fsError (code : String)
deriving Repr, DecidableEq

/-- The pair returned by `getConfig`. -/
structure AcqResult where
  config : String
  configDeps : List String
deriving Repr, DecidableEq

/-- Strip the last extension from a base name, keeping a leading dot name
whole, as `path.parse().name` does. -/
def stripExtL (base : List Char) : List Char :=
  match splitAtChar '.' base.reverse with
  | none => base
  | some (_, revRest) => if revRest.isEmpty then base else revRest.reverse

/-- Model of `path.join(dir, name)` over `path.parse(p)`: the path with its
final extension removed (config.js lines 164-165). -/
def basePathNoExt (p : String) : String :=
  match splitAtChar '/' p.toList.reverse with
  | none => String.mk (stripExtL p.toList)
  | some (revBase, revDir) =>
    let name := String.mk (stripExtL revBase.reverse)
    if revDir.isEmpty then "/" ++ name
    else String.mk revDir.reverse ++ "/" ++ name

/-- The conflict message of config.js line 116, naming the CONFIG_PATH
variable, the -f option, and the offending CONFIG_TEMPLATE_ARGS value. -/
def conflictMsg (raw : String) : String :=
  "Use either CONFIG_PATH env or \"-f\" option of CONFIG_TEMPLATE_ARGS env ["
    ++ raw ++ "] but not both"

/-- The FileMode tail of `getConfig` (config.js lines 163-183): read
`<base>.yaml` tolerating only ENOENT, then unconditionally read and return
`<base>.yml`, with the extensionless base as the only dependency. -/
def getConfigFileMode (fs : String → FsResult) (p : String) :
    Except ConfigError AcqResult :=
  let curPath := basePathNoExt p
  let readYml : Except ConfigError AcqResult :=
    match fs (curPath ++ ".yml") with
    | .ok conf => .ok { config := conf, configDeps := [curPath] }
    | .err c2 => .error (.fsError c2)
  match fs (curPath ++ ".yaml") with
  | .ok _ => readYml
  | .err code => if code ≠ "ENOENT" then .error (.fsError code) else readYml

/-- Source `getConfig` (config.js lines 110-184).  The yargs parse of
CONFIG_TEMPLATE_ARGS is supplied with the environment; the filesystem and
the process runner are explicit oracles.  When CONFIG_PATH is set in
CommandMode, the source either throws the conflict error (truthy `args.f`)
or hits `args.f = value.CONFIG_PATH` where `value` is not defined, a
ReferenceError: both are modelled exactly. -/
def getConfig (env : Env) (fs : String → FsResult)
    (exec : String → List String → ExecResult) : Except ConfigError AcqResult :=
  match env.templateArgs with
  | some ta =>
    let args := ta.parsed
    match env.configPath with
    | some _ =>
      if (args.flags.lookup "f").elim false FlagVal.truthy then
        .error (.conflict (conflictMsg ta.raw))
      else
        .error (.refError "value is not defined")
    | none =>
      match buildCmdArgs args.flags with
      | .error _ => .error (.urlError "Invalid URL")
      | .ok (cmdArgs, deps) =>
        if cmdArgs.isEmpty then
          .error (.acquisition "CONFIG_TEMPLATE_ARGS env requires at least one argument")
        else
          match args.positional.head? with
          | none =>
            .error (.typeError "The \"file\" argument must be of type string. Received undefined")
          | some cmd =>
            match exec cmd cmdArgs with
            | .ok out => .ok { config := out, configDeps := deps }
            | .err e => .error (.execFailed e)
  | none =>
    match env.configPath with
    | none => .error (.typeError "Received undefined")
    | some p => getConfigFileMode fs p

/-- Word character of the JavaScript regex class `\w`. -/
def isWordChar (c : Char) : Bool := c.isAlphanum || c = '_'

/-- Context lookup of the lodash interpolation: a missing key renders as the
empty string. -/
def ctxLookup (ctx : List (String × String)) (k : String) : String :=
  (ctx.lookup k).getD ""

/-- Left-to-right scan of the lodash interpolation specialised to
`templateInterpolateReg` (config.js line 92), as a state machine: the first
argument holds the reversed identifier characters read since an opening
bracket.  A bracketed non-empty word-character run closed by a bracket is
replaced by the context value; everything else is emitted literally. -/
def renderAux (ctx : List (String × String)) : Option (List Char) → List Char → List Char
  | none, [] => []
  | some pend, [] => '[' :: pend.reverse
  | none, c :: rest =>
    if c = '[' then renderAux ctx (some []) rest
    else c :: renderAux ctx none rest
  | some pend, c :: rest =>
    if isWordChar c then renderAux ctx (some (c :: pend)) rest
    else if c = ']' && !pend.isEmpty then
      (ctxLookup ctx (String.mk pend.reverse)).toList ++ renderAux ctx none rest
    else if c = '[' then
      '[' :: pend.reverse ++ renderAux ctx (some []) rest
    else
      '[' :: pend.reverse ++ c :: renderAux ctx none rest

/-- Model of `template(tmpl, { interpolate: templateInterpolateReg })`: a
pure compiled render function over a named-value context. -/
def compileTemplate (tmpl : String) (ctx : List (String × String)) : String :=
  String.mk (renderAux ctx none tmpl.toList)

/-- JavaScript values as produced by the YAML parse of the configuration
text.  Object field lists are assumed duplicate-free, as YAML mappings are. -/
inductive JVal where
  | null
  | bool (b : Bool)
  | num (n : Int)
  | str (s : String)
  | arr (l : List JVal)
  | obj (fields : List (String × JVal))

/-- Property access on an object field list. -/
def getField (fields : List (String × JVal)) (k : String) : Option JVal :=
  fields.lookup k

/-- JavaScript strict equality on possibly-undefined values, as used on the
field reads inside `checkUniqueField`: undefined equals undefined,
primitives compare by value, and distinct object or array literals compare
by reference, hence unequal. -/
def jsStrictEq : Option JVal → Option JVal → Bool
  | none, none => true
  | some (.str s1), some (.str s2) => s1 = s2
  | some (.num n1), some (.num n2) => n1 = n2
  | some (.bool b1), some (.bool b2) => b1 = b2
  | some .null, some .null => true
  | _, _ => false

/-- The string-shorthand coercion inside `checkUniqueField` (config.js
lines 19-27): a bare string stands for an object with the identifying
field. -/
def coerceShorthand (field : String) (v : JVal) : JVal :=
  match v with
  | .str s => .obj [(field, .str s)]
  | _ => v

/-- Property read used by the comparator; reading a field of a non-object
yields undefined. -/
def fieldOf (field : String) (v : JVal) : Option JVal :=
  match v with
  | .obj fl => getField fl field
  | _ => none

/-- Source `checkUniqueField` (config.js lines 15-31): coerce bare strings
to objects on the identifying field and compare that field strictly.  The
source repeats the same comparison twice in a disjunction, which is the
single comparison. -/
def checkUniqueField (field : String) (v1 v2 : JVal) : Bool :=
  jsStrictEq (fieldOf field (coerceShorthand field v1))
    (fieldOf field (coerceShorthand field v2))

/-- One schema violation: a field path and a message, the pair shape of a
Joi error detail. -/
structure Violation where
  path : List String
  msg : String
deriving Repr, DecidableEq

/-- The duplicate scan of a Joi `.unique(comparator)` rule: each element is
compared against every earlier element, and a match records a duplicate
violation at the index of the later element.  `seen` holds the earlier
elements and `n` the index of the head of the remaining list. -/
def uniqueViolationsAux (comp : JVal → JVal → Bool) (path : List String) :
    List JVal → List JVal → Nat → List Violation
  | _, [], _ => []
  | seen, v :: rest, i =>
    (if seen.any (fun s => comp s v) then
      [⟨path ++ [toString i], "contains a duplicate value"⟩]
    else [])
      ++ uniqueViolationsAux comp path (seen ++ [v]) rest (i + 1)

/-- Joi duplicate detection over a whole array. -/
def uniqueViolations (comp : JVal → JVal → Bool) (path : List String)
    (l : List JVal) : List Violation :=
  uniqueViolationsAux comp path [] l 0

/-- Violations of `Joi.string()`: must be a non-empty string. -/
def violationsString (path : List String) (v : JVal) : List Violation :=
  match v with
  | .str s => if s = "" then [⟨path, "is not allowed to be empty"⟩] else []
  | _ => [⟨path, "must be a string"⟩]

/-- Violations of `Joi.boolean()`. -/
def violationsBool (path : List String) (v : JVal) : List Violation :=
  match v with
  | .bool _ => []
  | _ => [⟨path, "must be a boolean"⟩]

/-- Violations of `Joi.array().min(1)` (the `argsSchema` and
`onChangeCmdSchema` of config.js lines 33-35). -/
def violationsArgs (path : List String) (v : JVal) : List Violation :=
  match v with
  | .arr l => if l.isEmpty then [⟨path, "must contain at least 1 items"⟩] else []
  | _ => [⟨path, "must be an array"⟩]

/-- Joi `.uri()` approximation: the string must parse as a URL. -/
def isValidUri (s : String) : Bool := (parseURL s).isSome

/-- Joi `.alphanum()`: non-empty and only ASCII letters and digits. -/
def isAlphanumStr (s : String) : Bool :=
  s ≠ "" && s.toList.all Char.isAlphanum

/-- Violations of `onChangeSchema` (config.js lines 37-44): either a
non-empty array, or an object whose optional command is a non-empty array
and whose optional stdout and stderr are booleans.  A failed alternatives
rule reports one violation at its own path. -/
def violationsOnChange (path : List String) (v : JVal) : List Violation :=
  match v with
  | .arr l =>
    if l.isEmpty then [⟨path, "does not match any of the allowed types"⟩] else []
  | .obj fl =>
    let e :=
      (match getField fl "command" with
       | some c => violationsArgs (path ++ ["command"]) c
       | none => [])
      ++ (match getField fl "stdout" with
          | some c => violationsBool (path ++ ["stdout"]) c
          | none => [])
      ++ (match getField fl "stderr" with
          | some c => violationsBool (path ++ ["stderr"]) c
          | none => [])
    if e.isEmpty then [] else [⟨path, "does not match any of the allowed types"⟩]
  | _ => [⟨path, "does not match any of the allowed types"⟩]

/-- Violations of `DataSourceSchema` (config.js lines 46-54): a non-empty
bare string, or an object with a required valid-URI url, an optional
alphanumeric alias, and optional on_change and args. -/
def violationsDataSource (path : List String) (v : JVal) : List Violation :=
  match v with
  | .str s =>
    if s = "" then [⟨path, "does not match any of the allowed types"⟩] else []
  | .obj fl =>
    let e :=
      (match getField fl "url" with
       | some (.str s) =>
         if s = "" || !isValidUri s then [⟨path ++ ["url"], "must be a valid uri"⟩] else []
       | some _ => [⟨path ++ ["url"], "must be a string"⟩]
       | none => [⟨path ++ ["url"], "is required"⟩])
      ++ (match getField fl "alias" with
          | some (.str s) =>
            if !isAlphanumStr s then
              [⟨path ++ ["alias"], "must only contain alpha-numeric characters"⟩]
            else []
          | some _ => [⟨path ++ ["alias"], "must be a string"⟩]
          | none => [])
      ++ (match getField fl "on_change" with
          | some c => violationsOnChange (path ++ ["on_change"]) c
          | none => [])
      ++ (match getField fl "args" with
          | some c => violationsArgs (path ++ ["args"]) c
          | none => [])
    if e.isEmpty then [] else [⟨path, "does not match any of the allowed types"⟩]
  | _ => [⟨path, "does not match any of the allowed types"⟩]

/-- Violations of `FileSchema` (config.js lines 56-66). -/
def violationsFile (path : List String) (v : JVal) : List Violation :=
  match v with
  | .str s =>
    if s = "" then [⟨path, "does not match any of the allowed types"⟩] else []
  | .obj fl =>
    let e :=
      (match getField fl "input_path" with
       | some c => violationsString (path ++ ["input_path"]) c
       | none => [⟨path ++ ["input_path"], "is required"⟩])
      ++ (match getField fl "output_path" with
          | some c => violationsString (path ++ ["output_path"]) c
          | none => [])
      ++ (match getField fl "left_delimiter" with
          | some c => violationsString (path ++ ["left_delimiter"]) c
          | none => [])
      ++ (match getField fl "right_delimiter" with
          | some c => violationsString (path ++ ["right_delimiter"]) c
          | none => [])
      ++ (match getField fl "on_change" with
          | some c => violationsOnChange (path ++ ["on_change"]) c
          | none => [])
      ++ (match getField fl "args" with
          | some c => violationsArgs (path ++ ["args"]) c
          | none => [])
    if e.isEmpty then [] else [⟨path, "does not match any of the allowed types"⟩]
  | _ => [⟨path, "does not match any of the allowed types"⟩]

/-- Violations of `FilePathSchema` (config.js lines 68-75). -/
def violationsFilePath (path : List String) (v : JVal) : List Violation :=
  match v with
  | .str s =>
    if s = "" then [⟨path, "does not match any of the allowed types"⟩] else []
  | .obj fl =>
    let e :=
      (match getField fl "path" with
       | some c => violationsString (path ++ ["path"]) c
       | none => [⟨path ++ ["path"], "is required"⟩])
      ++ (match getField fl "on_change" with
          | some c => violationsOnChange (path ++ ["on_change"]) c
          | none => [])
      ++ (match getField fl "args" with
          | some c => violationsArgs (path ++ ["args"]) c
          | none => [])
    if e.isEmpty then [] else [⟨path, "does not match any of the allowed types"⟩]
  | _ => [⟨path, "does not match any of the allowed types"⟩]

/-- Violations of an array field whose items follow a given schema, with an
optional uniqueness comparator, as in the array fields of
`ConfigItemSchema`.  With abortEarly false every item is checked and all
violations are concatenated in order. -/
def violationsArrayOf (itemCheck : List String → JVal → List Violation)
    (comp : Option (JVal → JVal → Bool)) (path : List String) (v : JVal) :
    List Violation :=
  match v with
  | .arr l =>
    (l.enum.flatMap fun p => itemCheck (path ++ [toString p.1]) p.2)
      ++ (match comp with
          | some c => uniqueViolations c path l
          | none => [])
  | _ => [⟨path, "must be an array"⟩]

/-- Violations of `ConfigItemSchema` (config.js lines 77-85).  Unknown keys
are stripped silently under the stripUnknown option, so they add no
violation. -/
def violationsConfigItem (path : List String) (v : JVal) : List Violation :=
  match v with
  | .obj fl =>
    (match getField fl "watch" with
     | some c => violationsBool (path ++ ["watch"]) c
     | none => [])
    ++ (match getField fl "dependencies" with
        | some c =>
          violationsArrayOf violationsFilePath (some (checkUniqueField "path"))
            (path ++ ["dependencies"]) c
        | none => [])
    ++ (match getField fl "templates" with
        | some c =>
          violationsArrayOf violationsFilePath (some (checkUniqueField "path"))
            (path ++ ["templates"]) c
        | none => [])
    ++ (match getField fl "datasources" with
        | some c =>
          violationsArrayOf violationsDataSource (some (checkUniqueField "url"))
            (path ++ ["datasources"]) c
        | none => [])
    ++ (match getField fl "files" with
        | some c =>
          violationsArrayOf violationsFile (some (checkUniqueField "input_path"))
            (path ++ ["files"]) c
        | none => [])
    ++ (match getField fl "on_change" with
        | some c => violationsOnChange (path ++ ["on_change"]) c
        | none => [])
    ++ (match getField fl "args" with
        | some c => violationsArgs (path ++ ["args"]) c
        | none => [])
  | _ => [⟨path, "must be of type object"⟩]

/-- Violations of `ConfigSchema` (config.js lines 87-90): an array of items
of minimum length one, a non-array being wrapped into a singleton by the
single option.  With abortEarly false the violations of all items are
collected and concatenated. -/
def validateConfig (v : JVal) : List Violation :=
  match v with
  | .arr l =>
    if l.isEmpty then [⟨[], "must contain at least 1 items"⟩]
    else l.enum.flatMap fun p => violationsConfigItem [toString p.1] p.2
  | other => violationsConfigItem ["0"] other

/-- The single-option wrap applied by `ConfigSchema`. -/
def singleWrap (v : JVal) : List JVal :=
  match v with
  | .arr l => l
  | other => [other]

/-- The validation step of `parseConfig` (config.js lines 263-277): run the
schema with abortEarly false and throw the aggregated error when any
violation was collected, otherwise continue with the wrapped document. -/
def parseConfigChecked (doc : JVal) : Except (List Violation) (List JVal) :=
  let errs := validateConfig doc
  if errs.isEmpty then .ok (singleWrap doc) else .error errs

/-- Source `mapOnChange` (config.js lines 186-196): wrap a bare array into
the canonical object with the default output routing, pass anything else
through. -/
def mapOnChange (v : JVal) : JVal :=
  match v with
  | .arr l => .obj [("command", .arr l), ("stdout", .bool false), ("stderr", .bool true)]
  | other => other

/-- A data source as it comes out of validation: the bare-string shorthand
or the object form with its recognised fields. -/
inductive DataSourceV where
  | str (s : String)
  | obj (url : String) (aliasStr : Option String) (onChange : Option JVal)
      (args : Option (List JVal))

/-- A normalized data source: the fields copied by `mapDataSource` plus the
derived `path` and the compiled `makeAlias` render function, both populated
only in the file branch. -/
structure DataSourceC where
  url : String
  aliasStr : Option String
  onChange : Option JVal
  args : Option (List JVal)
  path : Option String
  makeAlias : Option (List (String × String) → String)

/-- Source `mapDataSource` (config.js lines 198-221): unwrap the shorthand,
normalize `on_change`, parse the url, and when the protocol starts with
"file" set `path` to the pathname and compile the alias template (an absent
alias compiles as the empty template).  An unparseable url makes the URL
constructor throw. -/
def mapDataSource (v : DataSourceV) : Except ConfigError DataSourceC :=
  let base : DataSourceC :=
    match v with
    | .str s =>
      { url := s, aliasStr := none, onChange := none, args := none,
        path := none, makeAlias := none }
    | .obj url a oc args =>
      { url := url, aliasStr := a, onChange := oc, args := args,
        path := none, makeAlias := none }
  let base := { base with onChange := base.onChange.map mapOnChange }
  match parseURL base.url with
  | none => .error (.urlError base.url)
  | some u =>
    if strStartsWith u.protocol "file" then
      .ok { base with
              path := some u.pathname,
              makeAlias := some (compileTemplate (base.aliasStr.getD "")) }
    else .ok base

/-- The element-wise map `item.datasources.map(v => mapDataSource(v))` of
config.js line 284, left to right, the first thrown error propagating. -/
def mapDataSources : List DataSourceV → Except ConfigError (List DataSourceC)
  | [] => .ok []
  | v :: rest =>
    match mapDataSource v with
    | .error e => .error e
    | .ok d =>
      match mapDataSources rest with
      | .error e => .error e
      | .ok ds => .ok (d :: ds)

/-- The datasource normalization of one config item (config.js lines
284-286): map every data source and partition the results on `path`,
lodash partition being the pair of the passing and the failing elements in
original order.  The result is the mapped list together with
`fileDataSources` and `otherDataSources`. -/
def normalizeDataSources (ds : List DataSourceV) :
    Except ConfigError (List DataSourceC × List DataSourceC × List DataSourceC) :=
  match mapDataSources ds with
  | .error e => .error e
  | .ok mds =>
    let p := mds.partition (fun d => d.path.isSome)
    .ok (mds, p.1, p.2)

/-- The reading of claim C8 that a data source belongs to the file
partition exactly when its url scheme is `file`: the parsed protocol equals
the string "file:". -/
def schemeIsFile (url : String) : Bool :=
  (parseURL url).elim false (fun u => u.protocol = "file:")

/-- Discriminator for the acquisition error kind. -/
def ConfigError.isAcquisition : ConfigError → Bool
  | .acquisition _ => true
  | _ => false

/-- Claim C1 (amended): in an acquisition with the templated-args variable
set, a parsed file flag `f` whose value is truthy, and the file-path
variable set, `getConfig` fails with the configuration-conflict error whose
message names both the CONFIG_PATH variable and the offending
CONFIG_TEMPLATE_ARGS value; the result does not depend on the filesystem or
on the process runner, so the failure precedes any file read or process
execution. -/
theorem conflict_on_truthy_f (ta : TemplateArgsEnv) (p : String) (v : FlagVal)
    (fs : String → FsResult) (exec : String → List String → ExecResult)
    (hf : ta.parsed.flags.lookup "f" = some v) (hv : v.truthy = true) :
    getConfig ⟨some ta, some p⟩ fs exec
      = .error (.conflict (conflictMsg ta.raw)) := by
  unfold getConfig
  simp [hf, hv]

/-- Witness for `conflict_on_truthy_f` at a concrete acquisition. -/
theorem conflict_on_truthy_f_witness :
    getConfig ⟨some ⟨"-f cfg.yml gomplate", ⟨[("f", FlagVal.str "cfg.yml")], ["gomplate"]⟩⟩,
        some "/c.yml"⟩
        (fun _ => FsResult.err "ENOENT") (fun _ _ => ExecResult.ok "")
      = .error (.conflict (conflictMsg "-f cfg.yml gomplate")) := by
  exact conflict_on_truthy_f ⟨"-f cfg.yml gomplate", ⟨[("f", FlagVal.str "cfg.yml")], ["gomplate"]⟩⟩
    "/c.yml" (FlagVal.str "cfg.yml") _ _ rfl (by decide)

/-- Claim C1 counterexample: with the file flag present but parsed to the
empty string (as yargs-parser produces for an empty explicit value), the
truthiness test of config.js line 115 does not fire and `getConfig`
instead hits the undefined `value` of line 119, failing with a
ReferenceError rather than the conflict error. -/
theorem conflict_check_misses_falsy_f :
    getConfig ⟨some ⟨"--f= gomplate", ⟨[("f", FlagVal.str "")], ["gomplate"]⟩⟩, some "/c.yml"⟩
        (fun _ => FsResult.err "ENOENT") (fun _ _ => ExecResult.ok "")
      = .error (.refError "value is not defined")
    ∧ ConfigError.refError "value is not defined"
        ≠ ConfigError.conflict (conflictMsg "--f= gomplate") := by
  exact ⟨rfl, fun h => ConfigError.noConfusion h⟩

/-- Claim C2: with the file-path variable set and no file flag among the
parsed templated-args, config.js line 119 assigns `value.CONFIG_PATH` where
no `value` is in scope, so instead of injecting the file path the
acquisition fails with a ReferenceError. -/
theorem inject_config_path_reference_error :
    getConfig ⟨some ⟨"gomplate", ⟨[], ["gomplate"]⟩⟩, some "/data/config.yml"⟩
        (fun _ => FsResult.err "ENOENT") (fun _ _ => ExecResult.ok "")
      = .error (.refError "value is not defined") := rfl

/-- Claim C3: in FileMode the content of `<base>.yml` is returned whatever
the `<base>.yaml` read did (a successful read of it is discarded), a
`<base>.yaml` failure is tolerated only with code ENOENT, any other code is
fatal, and the dependency list is exactly the extensionless base path. -/
theorem fileMode_reads_yml_unconditionally (p : String) (fs : String → FsResult)
    (exec : String → List String → ExecResult) :
    (∀ s, fs (basePathNoExt p ++ ".yml") = .ok s →
      ((∃ y, fs (basePathNoExt p ++ ".yaml") = .ok y)
        ∨ fs (basePathNoExt p ++ ".yaml") = .err "ENOENT") →
      getConfig ⟨none, some p⟩ fs exec = .ok ⟨s, [basePathNoExt p]⟩)
    ∧ (∀ c, fs (basePathNoExt p ++ ".yaml") = .err c → c ≠ "ENOENT" →
      getConfig ⟨none, some p⟩ fs exec = .error (.fsError c)) := by
  constructor
  · intro s hyml hyaml
    unfold getConfig getConfigFileMode
    rcases hyaml with ⟨y, hy⟩ | hy <;> simp [hy, hyml]
  · intro c hyaml hne
    unfold getConfig getConfigFileMode
    simp [hyaml, hne]

/-- Witness for `fileMode_reads_yml_unconditionally`: both files exist, the
yaml content "A" is discarded and the yml content "B" returned. -/
theorem fileMode_reads_yml_unconditionally_witness :
    getConfig ⟨none, some "/etc/config.yml"⟩
        (fun q => if q = "/etc/config.yaml" then FsResult.ok "A"
                  else if q = "/etc/config.yml" then FsResult.ok "B"
                  else FsResult.err "ENOENT")
        (fun _ _ => ExecResult.ok "")
      = .ok ⟨"B", ["/etc/config"]⟩ := by
  exact (fileMode_reads_yml_unconditionally "/etc/config.yml" _ _).1 "B" rfl
    (Or.inl ⟨"A", rfl⟩)

/-- Claim C4: rebuilding the argument vector for the flag map
t = tmpl.tpl, d = [alias=file:///data/x.json, alias2=https://example.com/y]
collects exactly the dependency set with tmpl.tpl and /data/x.json; flags t
and f always contribute their literal value, and a d flag contributes the
URL path of the part after the first equals sign exactly when its protocol
starts with "file". -/
theorem argv_dependency_extraction :
    buildCmdArgs [("t", FlagVal.str "tmpl.tpl"),
        ("d", FlagVal.arr ["alias=file:///data/x.json", "alias2=https://example.com/y"])]
      = .ok (["-t", "tmpl.tpl", "-d", "alias=file:///data/x.json",
              "-d", "alias2=https://example.com/y"],
             ["tmpl.tpl", "/data/x.json"])
    ∧ (∀ v, getPathFromArg "t" v = .ok (some v))
    ∧ (∀ v, getPathFromArg "f" v = .ok (some v))
    ∧ (∀ v u, parseURL (afterFirstEq v) = some u →
        getPathFromArg "d" v
          = .ok (if strStartsWith u.protocol "file" then some u.pathname else none)) := by
  refine ⟨rfl, fun v => rfl, fun v => rfl, fun v u h => ?_⟩
  simp [getPathFromArg, h]
  split <;> rfl

/-- Witness for `argv_dependency_extraction` on the file-scheme d value. -/
theorem argv_dependency_extraction_witness :
    getPathFromArg "d" "alias=file:///data/x.json" = .ok (some "/data/x.json") := by
  have h := argv_dependency_extraction.2.2.2 "alias=file:///data/x.json"
    ⟨"file:", "/data/x.json"⟩ rfl
  rw [if_pos (by decide : (strStartsWith "file:" "file") = true)] at h
  exact h

/-- Claim C5 (amended): in CommandMode without a positional token the
missing command is not detected as such: when the rebuilt argument vector
is empty `getConfig` fails with the at-least-one-argument
ConfigAcquisitionError before executing anything, but when flags produced a
non-empty vector the undefined command is handed to the process-execution
call, which rejects it with a TypeError at spawn time, independent of the
process runner. -/
theorem missing_command_behaviour (ta : TemplateArgsEnv)
    (fs : String → FsResult) (exec : String → List String → ExecResult)
    (hpos : ta.parsed.positional = []) :
    (∀ deps, buildCmdArgs ta.parsed.flags = .ok ([], deps) →
      getConfig ⟨some ta, none⟩ fs exec
        = .error (.acquisition "CONFIG_TEMPLATE_ARGS env requires at least one argument"))
    ∧ (∀ a l deps, buildCmdArgs ta.parsed.flags = .ok (a :: l, deps) →
      getConfig ⟨some ta, none⟩ fs exec
        = .error (.typeError "The \"file\" argument must be of type string. Received undefined")) := by
  constructor
  · intro deps h
    unfold getConfig
    simp [h]
  · intro a l deps h
    unfold getConfig
    simp [h, hpos]

/-- Witness for `missing_command_behaviour` in the empty-vector branch. -/
theorem missing_command_behaviour_witness :
    getConfig ⟨some ⟨" ", ⟨[], []⟩⟩, none⟩
        (fun _ => FsResult.err "ENOENT") (fun _ _ => ExecResult.ok "out")
      = .error (.acquisition "CONFIG_TEMPLATE_ARGS env requires at least one argument") := by
  exact (missing_command_behaviour ⟨" ", ⟨[], []⟩⟩ _ _ rfl).1 [] rfl

/-- Claim C5 counterexample: with a t flag and no positional token the
rebuilt vector is non-empty, so `getConfig` reaches the execution call with
an undefined command and fails with a TypeError, not with a
ConfigAcquisitionError. -/
theorem missing_command_not_acquisition_error :
    getConfig ⟨some ⟨"-t x", ⟨[("t", FlagVal.str "x")], []⟩⟩, none⟩
        (fun _ => FsResult.err "ENOENT") (fun _ _ => ExecResult.ok "out")
      = .error (.typeError "The \"file\" argument must be of type string. Received undefined")
    ∧ (ConfigError.typeError
        "The \"file\" argument must be of type string. Received undefined").isAcquisition
        = false := by
  exact ⟨rfl, rfl⟩

/-- Claim C9: the compiled template for out-[name].txt is one pure render
function, applied twice with different contexts without recompilation. -/
theorem template_compile_reuse :
    compileTemplate "out-[name].txt" [("name", "a")] = "out-a.txt"
    ∧ compileTemplate "out-[name].txt" [("name", "b")] = "out-b.txt" := by
  exact ⟨by decide, by decide⟩

/-- A violation of the item at index `k` belongs to the aggregated
violations of the whole document: per-item results are concatenated, never
cut short. -/
theorem mem_validateConfig_of_item (items : List JVal) (k : Nat)
    (hk : k < items.length) (v : Violation)
    (hv : v ∈ violationsConfigItem [toString k] (items.get ⟨k, hk⟩)) :
    v ∈ validateConfig (.arr items) := by
  have hempty : items.isEmpty = false := by
    cases items with
    | nil => simp at hk
    | cons a l => rfl
  unfold validateConfig
  simp only [hempty, Bool.false_eq_true, if_false]
  refine List.mem_flatMap.mpr ⟨(k, items.get ⟨k, hk⟩), ?_, hv⟩
  have h1 : k < items.enum.length := by
    simpa [List.enum_length] using hk
  have h2 : items.enum[k] = (k, items[k]) := List.getElem_enum items k h1
  have h3 : items.enum[k] ∈ items.enum := List.getElem_mem h1
  rw [h2] at h3
  simpa using h3

/-- When any violation exists, the validation step of `parseConfig` fails
with the full aggregated list. -/
theorem parseConfigChecked_error_of_mem (doc : JVal) (v : Violation)
    (hv : v ∈ validateConfig doc) :
    parseConfigChecked doc = .error (validateConfig doc) := by
  unfold parseConfigChecked
  have hne : (validateConfig doc).isEmpty = false := by
    cases h : validateConfig doc with
    | nil => rw [h] at hv; simp at hv
    | cons a l => rfl
  simp [hne]

/-- An element matched by the comparator against some already-seen value is
flagged as a duplicate at its own index. -/
theorem mem_uniqueAux_of_seen (comp : JVal → JVal → Bool) (pth : List String) :
    ∀ (l seen : List JVal) (n j : Nat) (hj : j < l.length) (s : JVal),
      s ∈ seen → comp s (l.get ⟨j, hj⟩) = true →
      (⟨pth ++ [toString (n + j)], "contains a duplicate value"⟩ : Violation)
        ∈ uniqueViolationsAux comp pth seen l n := by
  intro l
  induction l with
  | nil => intro seen n j hj; simp at hj
  | cons a rest ih =>
    intro seen n j hj s hs hcomp
    cases j with
    | zero =>
      have hany : seen.any (fun x => comp x a) = true := by
        refine List.any_eq_true.mpr ⟨s, hs, ?_⟩
        simpa using hcomp
      unfold uniqueViolationsAux
      rw [hany]
      exact List.mem_append_left _ (by simp)
    | succ j' =>
      have hj' : j' < rest.length := by simpa using hj
      have hc' : comp s (rest.get ⟨j', hj'⟩) = true := by
        simpa using hcomp
      have hmem := ih (seen ++ [a]) (n + 1) j' hj' s (List.mem_append_left _ hs) hc'
      have harith : n + (j' + 1) = (n + 1) + j' := by omega
      unfold uniqueViolationsAux
      rw [harith]
      exact List.mem_append_right _ hmem

/-- Two elements of the scanned list matched by the comparator produce a
duplicate violation at the later index. -/
theorem mem_uniqueAux_pair (comp : JVal → JVal → Bool) (pth : List String) :
    ∀ (l seen : List JVal) (n i j : Nat) (hi : i < l.length) (hj : j < l.length),
      i < j → comp (l.get ⟨i, hi⟩) (l.get ⟨j, hj⟩) = true →
      (⟨pth ++ [toString (n + j)], "contains a duplicate value"⟩ : Violation)
        ∈ uniqueViolationsAux comp pth seen l n := by
  intro l
  induction l with
  | nil => intro seen n i j hi hj; simp at hi
  | cons a rest ih =>
    intro seen n i j hi hj hij hcomp
    cases j with
    | zero => omega
    | succ j' =>
      have hj' : j' < rest.length := by simpa using hj
      unfold uniqueViolationsAux
      have harith : n + (j' + 1) = (n + 1) + j' := by omega
      rw [harith]
      refine List.mem_append_right _ ?_
      cases i with
      | zero =>
        have hc' : comp a (rest.get ⟨j', hj'⟩) = true := by
          simpa using hcomp
        exact mem_uniqueAux_of_seen comp pth rest (seen ++ [a]) (n + 1) j' hj' a
          (List.mem_append_right _ (by simp)) hc'
      | succ i' =>
        have hi' : i' < rest.length := by simpa using hi
        have hc' : comp (rest.get ⟨i', hi'⟩) (rest.get ⟨j', hj'⟩) = true := by
          simpa using hcomp
        exact ih (seen ++ [a]) (n + 1) i' j' hi' hj' (by omega) hc'

/-- A violation inside the datasources chunk of an item belongs to the
violations of the whole item. -/
theorem mem_violationsConfigItem_of_ds (pth : List String)
    (fl : List (String × JVal)) (c : JVal)
    (hds : getField fl "datasources" = some c) (v : Violation)
    (hv : v ∈ violationsArrayOf violationsDataSource (some (checkUniqueField "url"))
      (pth ++ ["datasources"]) c) :
    v ∈ violationsConfigItem pth (.obj fl) := by
  simp only [violationsConfigItem]
  rw [hds]
  simp only [List.mem_append]
  tauto

/-- The comparator of the datasources uniqueness rule relates the bare
shorthand and the object form of one url, in both orders. -/
theorem checkUniqueField_url_mixed (u : String) (o : List (String × JVal))
    (ho : getField o "url" = some (.str u)) :
    checkUniqueField "url" (.str u) (.obj o) = true
    ∧ checkUniqueField "url" (.obj o) (.str u) = true := by
  constructor <;>
    · simp only [checkUniqueField, coerceShorthand, fieldOf]
      rw [ho]
      simp [getField, jsStrictEq]

/-- Claim C6: a document whose item k has two data sources with the same
url, one the bare shorthand string and the other an object carrying that
url, fails validation with a duplicate violation on the datasources array:
the comparator coerces the shorthand to an object and compares the url
field whatever the forms. -/
theorem duplicate_url_across_shorthand
    (items : List JVal) (k : Nat) (hk : k < items.length)
    (fl : List (String × JVal)) (ds : List JVal) (i j : Nat)
    (hi : i < ds.length) (hj : j < ds.length) (hij : i < j)
    (u : String) (o : List (String × JVal))
    (hitem : items.get ⟨k, hk⟩ = .obj fl)
    (hdsf : getField fl "datasources" = some (.arr ds))
    (hshape : (ds.get ⟨i, hi⟩ = .str u ∧ ds.get ⟨j, hj⟩ = .obj o)
      ∨ (ds.get ⟨i, hi⟩ = .obj o ∧ ds.get ⟨j, hj⟩ = .str u))
    (hurl : getField o "url" = some (.str u)) :
    parseConfigChecked (.arr items) = .error (validateConfig (.arr items))
    ∧ (⟨[toString k, "datasources", toString j], "contains a duplicate value"⟩ : Violation)
        ∈ validateConfig (.arr items) := by
  have hcomp : checkUniqueField "url" (ds.get ⟨i, hi⟩) (ds.get ⟨j, hj⟩) = true := by
    rcases hshape with ⟨h1, h2⟩ | ⟨h1, h2⟩
    · rw [h1, h2]
      exact (checkUniqueField_url_mixed u o hurl).1
    · rw [h1, h2]
      exact (checkUniqueField_url_mixed u o hurl).2
  have hpair := mem_uniqueAux_pair (checkUniqueField "url")
    ([toString k] ++ ["datasources"]) ds [] 0 i j hi hj hij hcomp
  simp only [Nat.zero_add] at hpair
  have harr : (⟨[toString k, "datasources", toString j],
      "contains a duplicate value"⟩ : Violation)
      ∈ violationsArrayOf violationsDataSource (some (checkUniqueField "url"))
        ([toString k] ++ ["datasources"]) (.arr ds) := by
    simp only [violationsArrayOf]
    exact List.mem_append_right _ hpair
  have hitemmem := mem_violationsConfigItem_of_ds [toString k] fl (.arr ds) hdsf _ harr
  rw [← hitem] at hitemmem
  have hmem := mem_validateConfig_of_item items k hk _ hitemmem
  exact ⟨parseConfigChecked_error_of_mem _ _ hmem, hmem⟩

/-- Witness for `duplicate_url_across_shorthand`: one item with the same
url as a shorthand string and as an object. -/
theorem duplicate_url_across_shorthand_witness :
    parseConfigChecked (JVal.arr [.obj [("datasources",
        JVal.arr [.str "file:///a", .obj [("url", JVal.str "file:///a")]])]])
      = .error (validateConfig (JVal.arr [.obj [("datasources",
          JVal.arr [.str "file:///a", .obj [("url", JVal.str "file:///a")]])]]))
    ∧ (⟨["0", "datasources", "1"], "contains a duplicate value"⟩ : Violation)
        ∈ validateConfig (JVal.arr [.obj [("datasources",
            JVal.arr [.str "file:///a", .obj [("url", JVal.str "file:///a")]])]]) := by
  exact duplicate_url_across_shorthand
    [.obj [("datasources", JVal.arr [.str "file:///a", .obj [("url", JVal.str "file:///a")]])]]
    0 (by decide)
    [("datasources", JVal.arr [.str "file:///a", .obj [("url", JVal.str "file:///a")]])]
    [.str "file:///a", .obj [("url", JVal.str "file:///a")]]
    0 1 (by decide) (by decide) (by decide)
    "file:///a" [("url", JVal.str "file:///a")]
    rfl rfl (Or.inl ⟨rfl, rfl⟩) rfl

/-- Claim C7: validation is not fail-fast: any structural violation of any
item of the document appears in the aggregated list, and the validation
step of `parseConfig` surfaces that whole list as a single error. -/
theorem validation_aggregates_all_item_violations
    (items : List JVal) (k : Nat) (hk : k < items.length) (v : Violation)
    (hv : v ∈ violationsConfigItem [toString k] (items.get ⟨k, hk⟩)) :
    parseConfigChecked (.arr items) = .error (validateConfig (.arr items))
    ∧ v ∈ validateConfig (.arr items) := by
  have h := mem_validateConfig_of_item items k hk v hv
  exact ⟨parseConfigChecked_error_of_mem _ _ h, h⟩

/-- Witness for `validation_aggregates_all_item_violations`: a two-item
document whose second item is not even an object. -/
theorem validation_aggregates_all_item_violations_witness :
    parseConfigChecked (JVal.arr [.obj [("watch", JVal.str "yes")], .num 5])
      = .error (validateConfig (JVal.arr [.obj [("watch", JVal.str "yes")], .num 5]))
    ∧ (⟨["1"], "must be of type object"⟩ : Violation)
        ∈ validateConfig (JVal.arr [.obj [("watch", JVal.str "yes")], .num 5]) := by
  exact validation_aggregates_all_item_violations
    [.obj [("watch", JVal.str "yes")], .num 5] 1 (by decide)
    ⟨["1"], "must be of type object"⟩ (by decide)

/-- Every element of a successful datasource map is the image of some input
data source. -/
theorem mapDataSources_mem :
    ∀ (ds : List DataSourceV) (m : List DataSourceC),
      mapDataSources ds = .ok m →
      ∀ d ∈ m, ∃ v, mapDataSource v = .ok d := by
  intro ds
  induction ds with
  | nil =>
    intro m h d hd
    injection h with h2
    subst h2
    simp at hd
  | cons v rest ih =>
    intro m h d hd
    simp only [mapDataSources] at h
    split at h
    · exact Except.noConfusion h
    · rename_i d0 hv
      split at h
      · exact Except.noConfusion h
      · rename_i m0 hrest
        injection h with h2
        subst h2
        rcases List.mem_cons.mp hd with rfl | hd0
        · exact ⟨v, hv⟩
        · exact ih m0 hrest d hd0

/-- The derived `path` of a mapped data source is populated exactly when
the protocol of its parsed url starts with "file". -/
theorem mapDataSource_path_iff (v : DataSourceV) (d : DataSourceC)
    (h : mapDataSource v = .ok d) :
    (d.path.isSome = true
      ↔ (parseURL d.url).elim false (fun u => strStartsWith u.protocol "file") = true) := by
  cases v with
  | str s =>
    simp only [mapDataSource] at h
    split at h
    · exact Except.noConfusion h
    · rename_i u hp
      split at h
      · rename_i hf
        injection h with h2
        subst h2
        simp [hp, hf]
      · rename_i hf
        injection h with h2
        subst h2
        simp [hp, hf]
  | obj url a oc args =>
    simp only [mapDataSource] at h
    split at h
    · exact Except.noConfusion h
    · rename_i u hp
      split at h
      · rename_i hf
        injection h with h2
        subst h2
        simp [hp, hf]
      · rename_i hf
        injection h with h2
        subst h2
        simp [hp, hf]

/-- Claim C8 (amended): on a successful normalization, `fileDataSources`
and `otherDataSources` are the order-preserving filters of the mapped data
sources on the presence of `path`, their concatenation is a permutation of
the mapped list, and `path` is present exactly for the sources whose url
protocol starts with "file". -/
theorem datasource_partition_contract (ds : List DataSourceV)
    (mds file other : List DataSourceC)
    (h : normalizeDataSources ds = .ok (mds, file, other)) :
    file = mds.filter (fun d => d.path.isSome)
    ∧ other = mds.filter (fun d => !d.path.isSome)
    ∧ (file ++ other).Perm mds
    ∧ ∀ d ∈ mds, (d.path.isSome = true
        ↔ (parseURL d.url).elim false (fun u => strStartsWith u.protocol "file") = true) := by
  unfold normalizeDataSources at h
  split at h
  · exact Except.noConfusion h
  · rename_i m hm
    simp only [List.partition_eq_filter_filter, Except.ok.injEq, Prod.mk.injEq] at h
    obtain ⟨rfl, rfl, rfl⟩ := h
    refine ⟨rfl, rfl, ?_, ?_⟩
    · exact List.filter_append_perm (fun d : DataSourceC => d.path.isSome) m
    · intro d hd
      obtain ⟨v, hv⟩ := mapDataSources_mem ds m hm d hd
      exact mapDataSource_path_iff v d hv

/-- Claim C8 counterexample: the url files://h/p has scheme "files", not
"file", yet its data source is mapped with a populated path and lands in
`fileDataSources`, because the source tests the protocol with a prefix
match; so the file partition is not exactly the sources whose scheme is
`file`. -/
theorem file_partition_not_exact_scheme :
    (normalizeDataSources [DataSourceV.str "files://h/p"]).toOption.map
        (fun t => (t.2.1.map (fun d => (d.url, d.path, schemeIsFile d.url)), t.2.2.length))
      = some ([("files://h/p", some "/p", false)], 0) := by
  rfl

/-- Concrete normalized remote data source of the partition witness. -/
def dsOther : DataSourceC :=
  { url := "https://h/x", aliasStr := none, onChange := none, args := none,
    path := none, makeAlias := none }

/-- Concrete normalized file data source of the partition witness. -/
def dsFile : DataSourceC :=
  { url := "file:///a", aliasStr := none, onChange := none, args := none,
    path := some "/a", makeAlias := some (compileTemplate "") }

/-- Witness for `datasource_partition_contract` on one remote and one file
data source. -/
theorem datasource_partition_contract_witness :
    [dsFile] = [dsOther, dsFile].filter (fun d => d.path.isSome)
    ∧ [dsOther] = [dsOther, dsFile].filter (fun d => !d.path.isSome)
    ∧ ([dsFile] ++ [dsOther]).Perm [dsOther, dsFile] := by
  have h := datasource_partition_contract
    [DataSourceV.str "https://h/x", DataSourceV.str "file:///a"]
    [dsOther, dsFile] [dsFile] [dsOther] rfl
  exact ⟨h.1, h.2.1, h.2.2.1⟩

/-- Rendering leaves a bracket-free character list unchanged. -/
theorem renderAux_no_bracket (ctx : List (String × String)) :
    ∀ l : List Char, l.all (fun c => c != '[') = true → renderAux ctx none l = l := by
  intro l
  induction l with
  | nil => intro _; rfl
  | cons c rest ih =>
    intro h
    simp only [List.all_cons, Bool.and_eq_true, bne_iff_ne] at h
    obtain ⟨hc, hrest⟩ := h
    have hrest' : rest.all (fun c => c != '[') = true := by
      refine List.all_eq_true.mpr ?_
      intro x hx
      have := List.all_eq_true.mp hrest x hx
      simpa using this
    simp only [renderAux, if_neg hc]
    rw [ih hrest']

/-- Claim C10: a data source object accepted by validation has an alias of
alphanumeric characters only, so the compiled alias template of
`mapDataSource` never has a placeholder to substitute and renders the alias
unchanged under every context. -/
theorem validated_alias_is_alphanumeric (fl : List (String × JVal))
    (pth : List String) (a : String)
    (hok : violationsDataSource pth (.obj fl) = [])
    (halias : getField fl "alias" = some (.str a)) :
    isAlphanumStr a = true ∧ ∀ ctx, compileTemplate a ctx = a := by
  have halnum : isAlphanumStr a = true := by
    by_contra hne
    have hfa : isAlphanumStr a = false := by
      cases hx : isAlphanumStr a
      · rfl
      · exact absurd hx hne
    simp only [violationsDataSource] at hok
    rw [halias] at hok
    simp [hfa] at hok
  refine ⟨halnum, ?_⟩
  simp only [isAlphanumStr, Bool.and_eq_true] at halnum
  obtain ⟨_, hAll⟩ := halnum
  have hall : a.toList.all (fun c => c != '[') = true := by
    refine List.all_eq_true.mpr ?_
    intro c hc
    have hcAl : Char.isAlphanum c = true := List.all_eq_true.mp hAll c hc
    simp only [bne_iff_ne, ne_eq, decide_eq_true_eq]
    intro hceq
    subst hceq
    exact absurd hcAl (by decide)
  intro ctx
  unfold compileTemplate
  rw [renderAux_no_bracket ctx a.toList hall]
  rfl

/-- Witness for `validated_alias_is_alphanumeric` on a valid data source
object with the alias abc9. -/
theorem validated_alias_is_alphanumeric_witness :
    isAlphanumStr "abc9" = true ∧ compileTemplate "abc9" [("name", "zz")] = "abc9" := by
  have h := validated_alias_is_alphanumeric
    [("url", JVal.str "https://h/x"), ("alias", JVal.str "abc9")] [] "abc9" rfl rfl
  exact ⟨h.1, h.2 [("name", "zz")]⟩
